import Mathlib

/-!
Verification development for the SNIP dashboard (src/dashboard.py).

The core of the program is the callback `update_graph`: it loads a
harv_processed file (a first line of top-peak average LODs plus a
tab-separated table of markers), computes a bonferroni bound and a noise
bound, and for each of the five chromosomes filters the markers of that
chromosome down to the harvester-called subset (GQS present and above 3)
and then to the called subset (LOD above both bounds, count above the
minimum, spacing below the maximum, vbal1 above the minimum).  The called
subsets of the five chromosomes are concatenated into the output table.

Numeric values in the program are IEEE floats produced by numpy/pandas.
We model a float as `PyFloat α`: either a finite value drawn from a linear
ordered field `α`, positive or negative infinity, or NaN, with the IEEE
rules for multiplication and comparison on those special values.
`np.log10` is modelled by `np_log10 logpos`, where `logpos : α → α` gives
the logarithm on positive arguments (instantiated with `Real.logb 10`
when `α = ℝ`), while zero and negative arguments give the special values
numpy produces (`-inf` and `NaN`); numpy emits a warning there but raises
no exception.
-/

namespace SNIP

/-- A numpy/pandas floating point value over a field of finite values:
finite, positive infinity, negative infinity, or NaN. -/
inductive PyFloat (α : Type) where
  | fin (x : α)
  | inf
  | ninf
  | nan
deriving DecidableEq

variable {α : Type} [LinearOrderedField α]

/-- IEEE multiplication on `PyFloat`: NaN is absorbing, infinities follow
the sign of the finite factor, and `±inf * 0 = NaN`. -/
def PyFloat.mul : PyFloat α → PyFloat α → PyFloat α
  | .nan, _ => .nan
  | _, .nan => .nan
  | .fin a, .fin b => .fin (a * b)
  | .fin a, .inf => if 0 < a then .inf else if a < 0 then .ninf else .nan
  | .fin a, .ninf => if 0 < a then .ninf else if a < 0 then .inf else .nan
  | .inf, .fin b => if 0 < b then .inf else if b < 0 then .ninf else .nan
  | .ninf, .fin b => if 0 < b then .ninf else if b < 0 then .inf else .nan
  | .inf, .inf => .inf
  | .inf, .ninf => .ninf
  | .ninf, .inf => .ninf
  | .ninf, .ninf => .inf

/-- IEEE strict comparison on `PyFloat`: every comparison with NaN is
false; `-inf` is below every non-NaN value and `+inf` above. -/
def PyFloat.lt : PyFloat α → PyFloat α → Bool
  | .nan, _ => false
  | _, .nan => false
  | .fin a, .fin b => decide (a < b)
  | .fin _, .inf => true
  | .fin _, .ninf => false
  | .inf, _ => false
  | .ninf, .ninf => false
  | .ninf, _ => true

/-- The model of `np.log10`: on a positive argument it returns the finite
value `logpos x`; `np.log10(0)` is `-inf` and `np.log10` of a negative
number is `NaN` (numpy warns but does not raise). -/
def np_log10 (logpos : α → α) (x : α) : PyFloat α :=
  if 0 < x then .fin (logpos x) else if x < 0 then .nan else .ninf

/-- One row of the harv_processed data frame, with the fields the program
reads: `chr`, `ps`, `p_wald`, `GQS` (the string sentinel "None" modelled
as `none`), `spacing`, `count`, `monot`, `vbal1`.  The numeric string
columns are modelled after their `astype(float)` conversion. -/
structure Marker (α : Type) where
  chr : ℕ
  ps : ℤ
  p_wald : α
  GQS : Option α
  spacing : α
  count : α
  monot : α
  vbal1 : α
deriving DecidableEq

/-- A loaded harv_processed file: the header columns of the data frame,
the first-line list of top-peak average LODs (`noise_borders`), and the
marker rows.  Models the return value of `read_harv_processed`. -/
structure HarvFile (α : Type) where
  columns : List String
  averages : List α
  rows : List (Marker α)

/-- Names of chromosomes for the studied species (dashboard.py line 29). -/
def chromosomes_list : List String :=
  ["Chromosome 1", "Chromosome 2", "Chromosome 3", "Chromosome 4", "Chromosome 5"]

/-- Python `int()` applied to a float: truncation toward zero. -/
def pyInt [FloorRing α] (x : α) : ℤ :=
  if 0 ≤ x then Int.floor x else Int.ceil x

/-- The source function `handle_inputs(input, new_type=float)`: a present
input is returned as a float, a missing input gives the default value of
the parameter `default_value`, which every call site leaves at `0`. -/
def handle_inputs_float (input : Option α) : α :=
  match input with
  | some x => x
  | none => 0

/-- The source function `handle_inputs(input, new_type=int)`: a present
input is truncated to an integer by Python `int()`, a missing input gives
the default value `0`. -/
def handle_inputs_int [FloorRing α] (input : Option α) : ℤ :=
  match input with
  | some x => pyInt x
  | none => 0

/-- Line 203: `df_trim["LOD"] = np.log10(df_trim["p_wald"]) * (-1)`. -/
def LOD (logpos : α → α) (m : Marker α) : PyFloat α :=
  (np_log10 logpos m.p_wald).mul (.fin (-1))

/-- Line 205: `bonferroni = np.log10(0.05 / 10709466) * (-1)`. -/
def bonferroni (logpos : α → α) : PyFloat α :=
  (np_log10 logpos (5 / 100 / 10709466)).mul (.fin (-1))

/-- Line 211: `noise_border = np.log10(float(noise_borders[tavg])) * (-1) * fact`. -/
def noise_border (logpos : α → α) (avg fact : α) : PyFloat α :=
  ((np_log10 logpos avg).mul (.fin (-1))).mul (.fin fact)

/-- Lines 246 to 248: the marker survives `GQS != "None"` and, after
`astype(float)`, `GQS > 3`. -/
def quality_eligible (m : Marker α) : Bool :=
  match m.GQS with
  | some g => decide (3 < g)
  | none => false

/-- The significance half of the line 288 filter:
`(dff["LOD"] > noise_border) & (dff["LOD"] > bonferroni)`. -/
def significant (logpos : α → α) (noise bonf : PyFloat α) (m : Marker α) : Bool :=
  noise.lt (LOD logpos m) && bonf.lt (LOD logpos m)

/-- The structural half of the line 288 filter:
`(dff["count"] > peak_c) & (dff["spacing"] < max_spac) & (dff["vbal1"] > min_vb)`. -/
def structural_ok (pc ms : ℤ) (mv : α) (m : Marker α) : Bool :=
  decide ((pc : α) < m.count) && decide (m.spacing < (ms : α)) && decide (mv < m.vbal1)

/-- The full boolean filter of lines 288 to 292, the conjunction of the
significance and the structural comparisons. -/
def passes_thresholds (logpos : α → α) (noise bonf : PyFloat α) (pc ms : ℤ) (mv : α)
    (m : Marker α) : Bool :=
  significant logpos noise bonf m && structural_ok pc ms mv m

/-- Line 227: `df_chr = df_trim[df_trim["chr"] == chromosome]`. -/
def chr_rows (rows : List (Marker α)) (c : ℕ) : List (Marker α) :=
  rows.filter (fun m => m.chr == c)

/-- Lines 246 to 248: the harvester-called subset of a chromosome. -/
def harvester_called (rows : List (Marker α)) : List (Marker α) :=
  rows.filter quality_eligible

/-- Lines 288 to 292: the called subset surviving the threshold filter. -/
def called (logpos : α → α) (noise bonf : PyFloat α) (pc ms : ℤ) (mv : α)
    (rows : List (Marker α)) : List (Marker α) :=
  rows.filter (passes_thresholds logpos noise bonf pc ms mv)

/-- Line 203 adds the `LOD` column at the end of the data frame columns
(replacing it in place when it already exists); line 337 reads the
columns of the concatenated output. -/
def out_columns (cols : List String) : List String :=
  if "LOD" ∈ cols then cols else cols ++ ["LOD"]

/-- The Python exception raised by `noise_borders[tavg]` when the index
is out of range. -/
inductive PyError where
  | indexError
deriving DecidableEq

/-- The classification-relevant output of one run of `update_graph`: the
two threshold lines drawn on every chromosome panel, the concatenated
called table (line 336) and its columns (line 337). -/
structure Output (α : Type) where
  noise : PyFloat α
  bonferroni : PyFloat α
  table : List (Marker α)
  columns : List String
deriving DecidableEq

/-- The core of the callback `update_graph` (lines 178 to 340), with the
plotting plumbing stripped: compute the bonferroni bound (line 205),
coerce the inputs (`handle_inputs`, lines 209 and 213 to 215), compute
the noise bound once (line 211, raising an index error when `tavg` is out
of range of the first-line averages), then for each chromosome 1 to 5
take its rows, keep the harvester-called subset and then the called
subset, and concatenate the per-chromosome called subsets in chromosome
order (lines 295 and 336 to 338). -/
def update_graph [FloorRing α] (logpos : α → α) (file : HarvFile α) (tavg : ℕ)
    (fact? peak_c? max_spac? min_vb? : Option α) : Except PyError (Output α) :=
  match file.averages[tavg]? with
  | none => .error .indexError
  | some avg =>
    let fact := handle_inputs_float fact?
    let noise := noise_border logpos avg fact
    let bonf := bonferroni logpos
    let pc := handle_inputs_int peak_c?
    let ms := handle_inputs_int max_spac?
    let mv := handle_inputs_float min_vb?
    let table := (List.range' 1 chromosomes_list.length).flatMap fun c =>
      called logpos noise bonf pc ms mv (harvester_called (chr_rows file.rows c))
    .ok { noise := noise, bonferroni := bonf, table := table,
          columns := out_columns file.columns }

/-- The output table of a run: the table of a completed run, and the
empty list when the run aborted with an exception (no output produced). -/
def run_table [FloorRing α] (logpos : α → α) (file : HarvFile α) (tavg : ℕ)
    (fact? peak_c? max_spac? min_vb? : Option α) : List (Marker α) :=
  match update_graph logpos file tavg fact? peak_c? max_spac? min_vb? with
  | .ok o => o.table
  | .error _ => []

/-- The noise bound of a completed run, `none` when the run aborted. -/
def run_noise [FloorRing α] (logpos : α → α) (file : HarvFile α) (tavg : ℕ)
    (fact? peak_c? max_spac? min_vb? : Option α) : Option (PyFloat α) :=
  match update_graph logpos file tavg fact? peak_c? max_spac? min_vb? with
  | .ok o => some o.noise
  | .error _ => none

/-- The three classes of the data model of the specification. -/
inductive MClass where
  | background
  | detected
  | accepted
deriving DecidableEq

/-- Modelled from the spec: the derived three-way classification of a
marker (section 3 of the specification, "derived, not stored"), built
from the source predicates: not quality-eligible or not significant gives
`background`, quality-eligible and significant but failing a structural
test gives `detected`, passing everything gives `accepted`. -/
def spec_classify (logpos : α → α) (noise bonf : PyFloat α) (pc ms : ℤ) (mv : α)
    (m : Marker α) : MClass :=
  if quality_eligible m && significant logpos noise bonf m then
    if structural_ok pc ms mv m then .accepted else .detected
  else .background

/-- The column list of a completed run, `none` when the run aborted. -/
def run_columns [FloorRing α] (logpos : α → α) (file : HarvFile α) (tavg : ℕ)
    (fact? peak_c? max_spac? min_vb? : Option α) : Option (List String) :=
  match update_graph logpos file tavg fact? peak_c? max_spac? min_vb? with
  | .ok o => some o.columns
  | .error _ => none

/-- The column set the specification asserts for the output table, in the
column names of the source: position, score, quality score, spacing,
count, monotonicity, vertical balance, chromosome. -/
def spec_columns : List String :=
  ["ps", "LOD", "GQS", "spacing", "count", "monot", "vbal1", "chr"]

/-- A stand-in for the logarithm on positive arguments, instantiating
statements whose truth does not depend on the values the logarithm takes
on positive inputs. -/
def logq : ℚ → ℚ := fun _ => 0

/-- A concrete marker of chromosome 1 that passes every filter criterion
for the sample parameters below. -/
def mW : Marker ℚ :=
  { chr := 1, ps := 100, p_wald := 1, GQS := some 4, spacing := 5, count := 60,
    monot := 0, vbal1 := 1 }

/-- A concrete marker whose GQS column holds the sentinel "None". -/
def mNoGQS : Marker ℚ :=
  { chr := 2, ps := 200, p_wald := 1, GQS := none, spacing := 5, count := 60,
    monot := 0, vbal1 := 1 }

/-- A concrete loaded file over the rationals. -/
def fileW : HarvFile ℚ :=
  { columns := ["chr", "ps", "p_wald", "GQS", "spacing", "count", "monot", "vbal1"],
    averages := [2],
    rows := [mW, mNoGQS] }

/-- A concrete loaded file whose selected top-peak average is zero. -/
def fileZ : HarvFile ℚ :=
  { columns := ["chr", "ps", "p_wald", "GQS", "spacing", "count", "monot", "vbal1"],
    averages := [0],
    rows := [] }

/-- A concrete marker over the reals with a p value in (0, 1]. -/
noncomputable def mR : Marker ℝ :=
  { chr := 1, ps := 100, p_wald := 1 / 2, GQS := some 4, spacing := 5, count := 60,
    monot := 0, vbal1 := 1 }

/-- A concrete loaded file over the reals with top-peak average 10. -/
noncomputable def fileR : HarvFile ℝ :=
  { columns := ["chr", "ps", "p_wald", "GQS", "spacing", "count", "monot", "vbal1"],
    averages := [10],
    rows := [mR] }

/-! Basic evaluation lemmas for the float model. -/

theorem PyFloat.mul_fin_fin (a b : α) : (PyFloat.fin a).mul (.fin b) = .fin (a * b) := rfl

theorem PyFloat.lt_fin_fin (a b : α) : (PyFloat.fin a).lt (.fin b) = decide (a < b) := rfl

theorem PyFloat.lt_self (x : PyFloat α) : x.lt x = false := by
  cases x <;> simp [PyFloat.lt]

theorem PyFloat.lt_inf_left (x : PyFloat α) : PyFloat.inf.lt x = false := by
  cases x <;> simp [PyFloat.lt]

theorem PyFloat.lt_nan_left (x : PyFloat α) : PyFloat.nan.lt x = false := by
  cases x <;> simp [PyFloat.lt]

theorem np_log10_of_pos (logpos : α → α) {x : α} (h : 0 < x) :
    np_log10 logpos x = .fin (logpos x) := by
  simp [np_log10, h]

theorem np_log10_zero (logpos : α → α) : np_log10 logpos (0 : α) = .ninf := by
  simp [np_log10]

theorem np_log10_of_neg (logpos : α → α) {x : α} (h : x < 0) :
    np_log10 logpos x = .nan := by
  rw [np_log10, if_neg (by linarith), if_pos h]

theorem noise_border_of_pos (logpos : α → α) {avg : α} (fact : α) (h : 0 < avg) :
    noise_border logpos avg fact = .fin (logpos avg * -1 * fact) := by
  rw [noise_border, np_log10_of_pos logpos h, PyFloat.mul_fin_fin, PyFloat.mul_fin_fin]

theorem noise_border_zero_avg (logpos : α → α) {fact : α} (hf : 0 < fact) :
    noise_border logpos 0 fact = .inf := by
  rw [noise_border, np_log10_zero]
  show PyFloat.mul (if (0:α) < -1 then _ else if (-1:α) < 0 then _ else _) _ = _
  rw [if_neg (by norm_num), if_pos (by norm_num)]
  show (if (0:α) < fact then _ else _) = _
  rw [if_pos hf]

theorem noise_border_neg_avg (logpos : α → α) {avg : α} (fact : α) (h : avg < 0) :
    noise_border logpos avg fact = .nan := by
  rw [noise_border, np_log10_of_neg logpos h]
  rfl

theorem LOD_of_pos (logpos : α → α) {m : Marker α} (h : 0 < m.p_wald) :
    LOD logpos m = .fin (logpos m.p_wald * -1) := by
  rw [LOD, np_log10_of_pos logpos h, PyFloat.mul_fin_fin]

theorem bonferroni_eq (logpos : α → α) :
    bonferroni logpos = .fin (logpos (5 / 100 / 10709466) * -1) := by
  have h : (0:α) < 5 / 100 / 10709466 := by positivity
  rw [bonferroni, np_log10_of_pos logpos h, PyFloat.mul_fin_fin]

/-! Unfolding lemmas for a completed run. -/

theorem update_graph_eq [FloorRing α] (logpos : α → α) (file : HarvFile α) (tavg : ℕ)
    {avg : α} (fact? peak_c? max_spac? min_vb? : Option α)
    (h : file.averages[tavg]? = some avg) :
    update_graph logpos file tavg fact? peak_c? max_spac? min_vb? =
      .ok { noise := noise_border logpos avg (handle_inputs_float fact?),
            bonferroni := bonferroni logpos,
            table := (List.range' 1 chromosomes_list.length).flatMap fun c =>
              called logpos (noise_border logpos avg (handle_inputs_float fact?))
                (bonferroni logpos) (handle_inputs_int peak_c?)
                (handle_inputs_int max_spac?) (handle_inputs_float min_vb?)
                (harvester_called (chr_rows file.rows c)),
            columns := out_columns file.columns } := by
  rw [update_graph, h]

theorem mem_run_table [FloorRing α] (logpos : α → α) (file : HarvFile α) (tavg : ℕ)
    {avg : α} (fact? peak_c? max_spac? min_vb? : Option α)
    (h : file.averages[tavg]? = some avg) (m : Marker α) :
    m ∈ run_table logpos file tavg fact? peak_c? max_spac? min_vb? ↔
      m ∈ file.rows ∧ 1 ≤ m.chr ∧ m.chr ≤ 5 ∧
      quality_eligible m = true ∧
      passes_thresholds logpos (noise_border logpos avg (handle_inputs_float fact?))
        (bonferroni logpos) (handle_inputs_int peak_c?) (handle_inputs_int max_spac?)
        (handle_inputs_float min_vb?) m = true := by
  rw [run_table, update_graph_eq logpos file tavg fact? peak_c? max_spac? min_vb? h]
  simp only [called, harvester_called, chr_rows, List.mem_flatMap, List.mem_filter,
    List.mem_range'_1, chromosomes_list, List.length_cons, List.length_nil, beq_iff_eq]
  constructor
  · rintro ⟨c, ⟨hc1, hc2⟩, ⟨⟨hm, hchr⟩, helig⟩, hpass⟩
    exact ⟨hm, by omega, by omega, helig, hpass⟩
  · rintro ⟨hm, hc1, hc2, helig, hpass⟩
    exact ⟨m.chr, ⟨hc1, by omega⟩, ⟨⟨hm, rfl⟩, helig⟩, hpass⟩

theorem handle_inputs_float_some (x : α) : handle_inputs_float (some x) = x := rfl

theorem handle_inputs_float_none : handle_inputs_float (none : Option α) = 0 := rfl

theorem handle_inputs_int_some [FloorRing α] (x : α) :
    handle_inputs_int (some x) = pyInt x := rfl

theorem handle_inputs_int_none [FloorRing α] :
    handle_inputs_int (none : Option α) = 0 := rfl

theorem run_table_of_none [FloorRing α] (logpos : α → α) (file : HarvFile α) (tavg : ℕ)
    (fact? peak_c? max_spac? min_vb? : Option α) (h : file.averages[tavg]? = none) :
    run_table logpos file tavg fact? peak_c? max_spac? min_vb? = [] := by
  rw [run_table, update_graph, h]

theorem noise_border_zero_zero (logpos : α → α) :
    noise_border logpos 0 0 = .nan := by
  rw [noise_border, np_log10_zero]
  show PyFloat.mul (if (0:α) < -1 then _ else if (-1:α) < 0 then _ else _) _ = _
  rw [if_neg (by norm_num), if_pos (by norm_num)]
  show (if (0:α) < 0 then _ else if (0:α) < 0 then _ else _) = _
  rw [if_neg (by norm_num), if_neg (by norm_num)]

theorem noise_lt_false_of_nonpos (logpos : α → α) {avg fact : α}
    (ha : avg ≤ 0) (hf : 0 ≤ fact) (x : PyFloat α) :
    (noise_border logpos avg fact).lt x = false := by
  rcases lt_or_eq_of_le ha with h | h
  · rw [noise_border_neg_avg logpos fact h, PyFloat.lt_nan_left]
  · rcases lt_or_eq_of_le hf with hf2 | hf2
    · rw [h, noise_border_zero_avg logpos hf2, PyFloat.lt_inf_left]
    · rw [h, ← hf2, noise_border_zero_zero, PyFloat.lt_nan_left]

theorem elig_of_mem_run_table [FloorRing α] (logpos : α → α) (file : HarvFile α)
    (tavg : ℕ) (fact? peak_c? max_spac? min_vb? : Option α) (m : Marker α)
    (hin : m ∈ run_table logpos file tavg fact? peak_c? max_spac? min_vb?) :
    quality_eligible m = true := by
  cases hav : file.averages[tavg]? with
  | none =>
    rw [run_table_of_none logpos file tavg fact? peak_c? max_spac? min_vb? hav] at hin
    cases hin
  | some avg =>
    exact ((mem_run_table logpos file tavg fact? peak_c? max_spac? min_vb? hav m).mp
      hin).2.2.2.1

/-! Claim theorems. -/

/-- C1: for a completed run and a marker of one of the five chromosomes
(the data model fixes five), the marker is in the called output table iff
it is a row of the file, is quality-eligible, its LOD score is strictly
above both the noise bound and the bonferroni bound, and its structural
fields pass the three strict comparisons; in particular a marker whose
LOD equals one of the two bounds, or whose count equals the minimum
count, is not in the table. -/
theorem accepted_iff_all_strict {α : Type} [LinearOrderedField α] [FloorRing α]
    (logpos : α → α) (file : HarvFile α) (tavg : ℕ) {avg : α}
    (fact? peak_c? max_spac? min_vb? : Option α)
    (h : file.averages[tavg]? = some avg) (m : Marker α)
    (hchr : 1 ≤ m.chr ∧ m.chr ≤ 5) :
    (m ∈ run_table logpos file tavg fact? peak_c? max_spac? min_vb? ↔
      m ∈ file.rows ∧ quality_eligible m = true ∧
      (noise_border logpos avg (handle_inputs_float fact?)).lt (LOD logpos m) = true ∧
      (bonferroni logpos).lt (LOD logpos m) = true ∧
      ((handle_inputs_int peak_c? : ℤ) : α) < m.count ∧
      m.spacing < ((handle_inputs_int max_spac? : ℤ) : α) ∧
      handle_inputs_float min_vb? < m.vbal1) ∧
    (LOD logpos m = noise_border logpos avg (handle_inputs_float fact?) →
      m ∉ run_table logpos file tavg fact? peak_c? max_spac? min_vb?) ∧
    (LOD logpos m = bonferroni logpos →
      m ∉ run_table logpos file tavg fact? peak_c? max_spac? min_vb?) ∧
    (m.count = ((handle_inputs_int peak_c? : ℤ) : α) →
      m ∉ run_table logpos file tavg fact? peak_c? max_spac? min_vb?) := by
  have hmem := mem_run_table logpos file tavg fact? peak_c? max_spac? min_vb? h m
  rw [passes_thresholds, significant, structural_ok] at hmem
  simp only [Bool.and_eq_true, decide_eq_true_eq] at hmem
  refine ⟨?_, ?_, ?_, ?_⟩
  · rw [hmem]
    constructor
    · rintro ⟨hm, _, _, helig, ⟨hn, hb⟩, ⟨hc, hs⟩, hv⟩
      exact ⟨hm, helig, hn, hb, hc, hs, hv⟩
    · rintro ⟨hm, helig, hn, hb, hc, hs, hv⟩
      exact ⟨hm, hchr.1, hchr.2, helig, ⟨hn, hb⟩, ⟨hc, hs⟩, hv⟩
  · intro heq hin
    rw [hmem] at hin
    have hlt := hin.2.2.2.2.1.1
    rw [heq, PyFloat.lt_self] at hlt
    exact Bool.false_ne_true hlt
  · intro heq hin
    rw [hmem] at hin
    have hlt := hin.2.2.2.2.1.2
    rw [heq, PyFloat.lt_self] at hlt
    exact Bool.false_ne_true hlt
  · intro heq hin
    rw [hmem] at hin
    have hlt := hin.2.2.2.2.2.1.1
    rw [heq] at hlt
    exact lt_irrefl _ hlt

/-- Witness for C1 at a concrete file, marker and parameter set. -/
theorem accepted_iff_all_strict_witness :
    fileW.averages[0]? = some 2 ∧ (1 ≤ mW.chr ∧ mW.chr ≤ 5) ∧
    ((mW ∈ run_table logq fileW 0 (some 1) (some 50) (some 20000) (some 1) ↔
      mW ∈ fileW.rows ∧ quality_eligible mW = true ∧
      (noise_border logq 2 (handle_inputs_float (some 1))).lt (LOD logq mW) = true ∧
      (bonferroni logq).lt (LOD logq mW) = true ∧
      ((handle_inputs_int (some (50:ℚ)) : ℤ) : ℚ) < mW.count ∧
      mW.spacing < ((handle_inputs_int (some (20000:ℚ)) : ℤ) : ℚ) ∧
      handle_inputs_float (some (1:ℚ)) < mW.vbal1) ∧
    (LOD logq mW = noise_border logq 2 (handle_inputs_float (some 1)) →
      mW ∉ run_table logq fileW 0 (some 1) (some 50) (some 20000) (some 1)) ∧
    (LOD logq mW = bonferroni logq →
      mW ∉ run_table logq fileW 0 (some 1) (some 50) (some 20000) (some 1)) ∧
    (mW.count = ((handle_inputs_int (some (50:ℚ)) : ℤ) : ℚ) →
      mW ∉ run_table logq fileW 0 (some 1) (some 50) (some 20000) (some 1))) :=
  ⟨rfl, ⟨by decide, by decide⟩,
    accepted_iff_all_strict logq fileW 0 (some 1) (some 50) (some 20000) (some 1) rfl mW
      ⟨by decide, by decide⟩⟩

/-- C2: a marker is quality-eligible iff its GQS is present and strictly
above 3; a marker whose GQS is absent classifies as background and is in
no called table, whatever its score and structural fields. -/
theorem quality_gate {α : Type} [LinearOrderedField α] [FloorRing α]
    (logpos : α → α) (noise bonf : PyFloat α) (pc ms : ℤ) (mv : α) (m : Marker α) :
    (quality_eligible m = true ↔ ∃ g, m.GQS = some g ∧ 3 < g) ∧
    (m.GQS = none →
      spec_classify logpos noise bonf pc ms mv m = .background ∧
      ∀ (file : HarvFile α) (tavg : ℕ) (fact? peak_c? max_spac? min_vb? : Option α),
        m ∉ run_table logpos file tavg fact? peak_c? max_spac? min_vb?) := by
  constructor
  · cases hg : m.GQS with
    | none => simp [quality_eligible, hg]
    | some g => simp [quality_eligible, hg]
  · intro hnone
    have helig : quality_eligible m = false := by
      rw [quality_eligible, hnone]
    constructor
    · rw [spec_classify, helig]
      simp
    · intro file tavg fact? peak_c? max_spac? min_vb? hin
      have := elig_of_mem_run_table logpos file tavg fact? peak_c? max_spac? min_vb? m hin
      rw [helig] at this
      exact Bool.false_ne_true this

/-- Witness for C2 at a concrete GQS-less marker. -/
theorem quality_gate_witness :
    mNoGQS.GQS = none ∧
    (quality_eligible mNoGQS = true ↔ ∃ g, mNoGQS.GQS = some g ∧ 3 < g) ∧
    spec_classify logq (.fin 0) (.fin 0) 0 0 0 mNoGQS = .background ∧
    mNoGQS ∉ run_table logq fileW 0 (some 1) (some 50) (some 20000) (some 1) :=
  ⟨rfl,
    (quality_gate logq (.fin 0) (.fin 0) 0 0 0 mNoGQS).1,
    ((quality_gate logq (.fin 0) (.fin 0) 0 0 0 mNoGQS).2 rfl).1,
    ((quality_gate logq (.fin 0) (.fin 0) 0 0 0 mNoGQS).2 rfl).2 fileW 0
      (some 1) (some 50) (some 20000) (some 1)⟩

/-- C7: for fixed bounds and parameters the derived classes background,
detected and accepted assign every marker to exactly one class; a
quality-eligible marker that is not significant is background, not
detected; and the accepted class coincides with the boolean filter of the
source. -/
theorem classification_partition {α : Type} [LinearOrderedField α]
    (logpos : α → α) (noise bonf : PyFloat α) (pc ms : ℤ) (mv : α) (m : Marker α) :
    ((spec_classify logpos noise bonf pc ms mv m = .background ∧
      spec_classify logpos noise bonf pc ms mv m ≠ .detected ∧
      spec_classify logpos noise bonf pc ms mv m ≠ .accepted) ∨
     (spec_classify logpos noise bonf pc ms mv m ≠ .background ∧
      spec_classify logpos noise bonf pc ms mv m = .detected ∧
      spec_classify logpos noise bonf pc ms mv m ≠ .accepted) ∨
     (spec_classify logpos noise bonf pc ms mv m ≠ .background ∧
      spec_classify logpos noise bonf pc ms mv m ≠ .detected ∧
      spec_classify logpos noise bonf pc ms mv m = .accepted)) ∧
    (quality_eligible m = true → significant logpos noise bonf m = false →
      spec_classify logpos noise bonf pc ms mv m = .background ∧
      spec_classify logpos noise bonf pc ms mv m ≠ .detected) ∧
    (spec_classify logpos noise bonf pc ms mv m = .accepted ↔
      (quality_eligible m && passes_thresholds logpos noise bonf pc ms mv m) = true) := by
  cases he : quality_eligible m <;>
    cases hs : significant logpos noise bonf m <;>
      cases hst : structural_ok pc ms mv m <;>
        simp [spec_classify, passes_thresholds, he, hs, hst]

/-- Witness for C7 at a concrete marker and parameter set, with the
middle implication discharged at a quality-eligible non-significant
marker. -/
theorem classification_partition_witness :
    quality_eligible mW = true ∧
    significant logq (.fin 0) (.fin 0) mW = false ∧
    (spec_classify logq (.fin 0) (.fin 0) 0 0 0 mW = .background ∧
      spec_classify logq (.fin 0) (.fin 0) 0 0 0 mW ≠ .detected) :=
  ⟨by decide,
    by simp [significant, LOD, np_log10, logq, mW, PyFloat.mul, PyFloat.lt],
    (classification_partition logq (.fin 0) (.fin 0) 0 0 0 mW).2.1
      (by decide)
      (by simp [significant, LOD, np_log10, logq, mW, PyFloat.mul, PyFloat.lt])⟩

/-- C3: a completed run computes its noise bound once, as
`-log10(averages[window_index]) * multiplier`, and the called subset of
every one of the five chromosomes is filtered against that same bound. -/
theorem noise_once_uniform {α : Type} [LinearOrderedField α] [FloorRing α]
    (logpos : α → α) (file : HarvFile α) (tavg : ℕ) {avg : α}
    (fact? peak_c? max_spac? min_vb? : Option α)
    (h : file.averages[tavg]? = some avg) :
    ∃ o, update_graph logpos file tavg fact? peak_c? max_spac? min_vb? = .ok o ∧
      o.noise = noise_border logpos avg (handle_inputs_float fact?) ∧
      (0 < avg → o.noise = .fin (logpos avg * -1 * handle_inputs_float fact?)) ∧
      o.table = (List.range' 1 chromosomes_list.length).flatMap fun c =>
        called logpos o.noise (bonferroni logpos) (handle_inputs_int peak_c?)
          (handle_inputs_int max_spac?) (handle_inputs_float min_vb?)
          (harvester_called (chr_rows file.rows c)) := by
  refine ⟨_, update_graph_eq logpos file tavg fact? peak_c? max_spac? min_vb? h,
    rfl, ?_, rfl⟩
  intro hpos
  exact noise_border_of_pos logpos (handle_inputs_float fact?) hpos

/-- Witness for C3 at a concrete file. -/
theorem noise_once_uniform_witness :
    fileW.averages[0]? = some 2 ∧
    (∃ o, update_graph logq fileW 0 (some 1) none none none = .ok o ∧
      o.noise = noise_border logq 2 (handle_inputs_float (some 1)) ∧
      ((0:ℚ) < 2 → o.noise = .fin (logq 2 * -1 * handle_inputs_float (some 1))) ∧
      o.table = (List.range' 1 chromosomes_list.length).flatMap fun c =>
        called logq o.noise (bonferroni logq) (handle_inputs_int (none : Option ℚ))
          (handle_inputs_int (none : Option ℚ)) (handle_inputs_float (none : Option ℚ))
          (harvester_called (chr_rows fileW.rows c))) :=
  ⟨rfl, noise_once_uniform logq fileW 0 (some 1) none none none rfl⟩

/-- C4: every completed run uses as bonferroni bound the constant
`-log10(0.05 / 10709466)`; the bound depends on neither the file
contents, nor the number of rows, nor any user parameter, and two
completed runs over different files and parameters use the same bound. -/
theorem bonferroni_constant {α : Type} [LinearOrderedField α] [FloorRing α]
    (logpos : α → α) (file : HarvFile α) (tavg : ℕ) {avg : α}
    (fact? peak_c? max_spac? min_vb? : Option α)
    (h : file.averages[tavg]? = some avg) :
    ∃ o, update_graph logpos file tavg fact? peak_c? max_spac? min_vb? = .ok o ∧
      o.bonferroni = (np_log10 logpos (5 / 100 / 10709466)).mul (.fin (-1)) ∧
      o.bonferroni = .fin (logpos (5 / 100 / 10709466) * -1) ∧
      (∀ (file2 : HarvFile α) (tavg2 : ℕ)
          (fact2? peak_c2? max_spac2? min_vb2? : Option α) (avg2 : α) (o2 : Output α),
        file2.averages[tavg2]? = some avg2 →
        update_graph logpos file2 tavg2 fact2? peak_c2? max_spac2? min_vb2? = .ok o2 →
        o2.bonferroni = o.bonferroni) := by
  refine ⟨_, update_graph_eq logpos file tavg fact? peak_c? max_spac? min_vb? h,
    rfl, bonferroni_eq logpos, ?_⟩
  intro file2 tavg2 fact2? peak_c2? max_spac2? min_vb2? avg2 o2 h2 hok
  rw [update_graph_eq logpos file2 tavg2 fact2? peak_c2? max_spac2? min_vb2? h2] at hok
  injection hok with hok
  rw [← hok]

/-- Witness for C4 at two concrete runs over different files and
parameters. -/
theorem bonferroni_constant_witness :
    fileW.averages[0]? = some 2 ∧ fileZ.averages[0]? = some 0 ∧
    (∃ o, update_graph logq fileW 0 (some 1) none none none = .ok o ∧
      o.bonferroni = (np_log10 logq (5 / 100 / 10709466)).mul (.fin (-1)) ∧
      o.bonferroni = .fin (logq (5 / 100 / 10709466) * -1) ∧
      (∀ (file2 : HarvFile ℚ) (tavg2 : ℕ)
          (fact2? peak_c2? max_spac2? min_vb2? : Option ℚ) (avg2 : ℚ) (o2 : Output ℚ),
        file2.averages[tavg2]? = some avg2 →
        update_graph logq file2 tavg2 fact2? peak_c2? max_spac2? min_vb2? = .ok o2 →
        o2.bonferroni = o.bonferroni)) :=
  ⟨rfl, rfl, bonferroni_constant logq fileW 0 (some 1) none none none rfl⟩

/-- Counterexample to C5 as stated: at the concrete file with selected
top-peak average 10, a blank multiplier does not give the noise bound
`-log10(10) * 1.33 = -1.33`; the run computes noise bound 0 instead. -/
theorem blank_multiplier_cex :
    run_noise (Real.logb 10) fileR 0 none none none none = some (.fin 0) ∧
    run_noise (Real.logb 10) fileR 0 none none none none ≠
      some (.fin (Real.logb 10 10 * -1 * (1.33 : ℝ))) := by
  have h0 : run_noise (Real.logb 10) fileR 0 none none none none = some (.fin 0) := by
    unfold run_noise
    rw [update_graph_eq (Real.logb 10) fileR 0 none none none none
      (show fileR.averages[0]? = some (10:ℝ) from rfl)]
    show some (noise_border (Real.logb 10) 10 (handle_inputs_float none)) = _
    rw [handle_inputs_float_none,
      noise_border_of_pos (Real.logb 10) 0 (by norm_num : (0:ℝ) < 10)]
    rw [mul_zero]
  refine ⟨h0, ?_⟩
  rw [h0, Real.logb_self_eq_one (by norm_num)]
  intro hcontra
  injection hcontra with hcontra
  have : (0 : ℝ) = 1 * -1 * 1.33 := congrArg (fun p : PyFloat ℝ =>
    match p with | .fin x => x | _ => 0) hcontra
  norm_num at this

/-- C5 amended: a missing or blank parameter falls back to the
`handle_inputs` default value 0 — not to the documented interface default
— for every one of the four parameters, and with a blank multiplier and a
positive selected average the computed noise bound is 0. -/
theorem blank_inputs_default_zero {α : Type} [LinearOrderedField α] [FloorRing α]
    (logpos : α → α) (file : HarvFile α) (tavg : ℕ) {avg : α}
    (h : file.averages[tavg]? = some avg) (hpos : 0 < avg) :
    handle_inputs_float (none : Option α) = 0 ∧
    handle_inputs_int (none : Option α) = 0 ∧
    ∃ o, update_graph logpos file tavg none none none none = .ok o ∧
      o.noise = .fin 0 := by
  refine ⟨rfl, rfl, _, update_graph_eq logpos file tavg none none none none h, ?_⟩
  show noise_border logpos avg (handle_inputs_float none) = PyFloat.fin 0
  rw [handle_inputs_float_none, noise_border_of_pos logpos 0 hpos, mul_zero]

/-- Witness for the amended C5 at a concrete file. -/
theorem blank_inputs_default_zero_witness :
    fileW.averages[0]? = some 2 ∧ (0:ℚ) < 2 ∧
    (handle_inputs_float (none : Option ℚ) = 0 ∧
     handle_inputs_int (none : Option ℚ) = 0 ∧
     ∃ o, update_graph logq fileW 0 none none none none = .ok o ∧
       o.noise = .fin 0) :=
  ⟨rfl, by norm_num,
    blank_inputs_default_zero logq fileW 0
      (show fileW.averages[0]? = some (2:ℚ) from rfl) (by norm_num)⟩

/-- Counterexample to C6 as stated: with the selected top-peak average 0
(a non-positive average) the run does not abort; it completes and
produces an output whose noise bound is positive infinity. -/
theorem nonpositive_average_cex :
    update_graph logq fileZ 0 (some 1) none none none =
      .ok { noise := .inf, bonferroni := bonferroni logq, table := [],
            columns := out_columns fileZ.columns } := by
  rw [update_graph_eq logq fileZ 0 (some 1) none none none
    (show fileZ.averages[0]? = some (0:ℚ) from rfl)]
  rw [handle_inputs_float_some, noise_border_zero_avg logq (by norm_num : (0:ℚ) < 1)]
  simp [called, harvester_called, chr_rows, fileZ]

/-- C6 amended: an out-of-range window index aborts the run with an index
error, producing no output; but a non-positive selected average does not
abort: `np.log10` yields `-inf` or `NaN` instead of raising, the run
completes, and (for a non-negative multiplier) no marker passes the noise
comparison, so the called table is empty. -/
theorem threshold_error_behavior {α : Type} [LinearOrderedField α] [FloorRing α]
    (logpos : α → α) (file : HarvFile α) (tavg : ℕ)
    (fact? peak_c? max_spac? min_vb? : Option α) :
    (file.averages[tavg]? = none →
      update_graph logpos file tavg fact? peak_c? max_spac? min_vb? =
        .error .indexError ∧
      run_table logpos file tavg fact? peak_c? max_spac? min_vb? = []) ∧
    (∀ avg, file.averages[tavg]? = some avg → avg ≤ 0 →
      0 ≤ handle_inputs_float fact? →
      ∃ o, update_graph logpos file tavg fact? peak_c? max_spac? min_vb? = .ok o ∧
        o.table = []) := by
  constructor
  · intro hnone
    constructor
    · rw [update_graph, hnone]
    · exact run_table_of_none logpos file tavg fact? peak_c? max_spac? min_vb? hnone
  · intro avg hav hle hf
    refine ⟨_, update_graph_eq logpos file tavg fact? peak_c? max_spac? min_vb? hav, ?_⟩
    have hnil : ∀ rows : List (Marker α),
        called logpos (noise_border logpos avg (handle_inputs_float fact?))
          (bonferroni logpos) (handle_inputs_int peak_c?) (handle_inputs_int max_spac?)
          (handle_inputs_float min_vb?) rows = [] := by
      intro rows
      rw [called, List.filter_eq_nil_iff]
      intro m hm
      rw [passes_thresholds, significant,
        noise_lt_false_of_nonpos logpos hle hf (LOD logpos m)]
      simp
    show (List.range' 1 chromosomes_list.length).flatMap (fun c =>
      called logpos (noise_border logpos avg (handle_inputs_float fact?))
        (bonferroni logpos) (handle_inputs_int peak_c?) (handle_inputs_int max_spac?)
        (handle_inputs_float min_vb?) (harvester_called (chr_rows file.rows c))) = []
    simp [hnil]

/-- Witness for the amended C6: a concrete out-of-range run aborts with
an index error, and a concrete run with selected average 0 completes with
an empty called table. -/
theorem threshold_error_behavior_witness :
    fileW.averages[3]? = none ∧
    (update_graph logq fileW 3 (some 1) none none none = .error .indexError ∧
     run_table logq fileW 3 (some 1) none none none = []) ∧
    fileZ.averages[0]? = some 0 ∧ (0:ℚ) ≤ 0 ∧
    (0:ℚ) ≤ handle_inputs_float (some (1:ℚ)) ∧
    (∃ o, update_graph logq fileZ 0 (some 1) none none none = .ok o ∧
      o.table = []) :=
  ⟨rfl,
    (threshold_error_behavior logq fileW 3 (some 1) none none none).1 rfl,
    rfl, le_refl 0, by norm_num [handle_inputs_float],
    (threshold_error_behavior logq fileZ 0 (some 1) none none none).2 0 rfl
      (le_refl 0) (by norm_num [handle_inputs_float])⟩

theorem noise_lt_antitone {avg f1 f2 x : α} (h1 : 0 < f1) (h12 : f1 ≤ f2) (hx : 0 ≤ x)
    (logpos : α → α)
    (h : (noise_border logpos avg f2).lt (.fin x) = true) :
    (noise_border logpos avg f1).lt (.fin x) = true := by
  rcases lt_trichotomy 0 avg with havg | havg | havg
  · rw [noise_border_of_pos logpos f2 havg] at h
    rw [noise_border_of_pos logpos f1 havg]
    rw [PyFloat.lt_fin_fin, decide_eq_true_eq] at h ⊢
    rcases le_or_lt (logpos avg) 0 with hL | hL
    · nlinarith [mul_le_mul_of_nonneg_left h12 (neg_nonneg.2 hL)]
    · nlinarith [mul_pos hL h1]
  · subst havg
    rw [noise_border_zero_avg logpos (lt_of_lt_of_le h1 h12), PyFloat.lt_inf_left] at h
    cases h
  · rw [noise_border_neg_avg logpos f2 havg, PyFloat.lt_nan_left] at h
    cases h

/-- C8: over a file whose p values lie in (0, 1], raising a positive
multiplier to a larger value can only shrink the called table (every
marker called at the larger multiplier is called at the smaller one), and
a marker classified background at the smaller multiplier is still
background at the larger one: no marker moves from background toward
detected or accepted. -/
theorem multiplier_monotone (file : HarvFile ℝ) (tavg : ℕ) (f1 f2 : ℝ)
    (peak_c? max_spac? min_vb? : Option ℝ)
    (h1 : 0 < f1) (h12 : f1 ≤ f2)
    (hp : ∀ m ∈ file.rows, 0 < m.p_wald ∧ m.p_wald ≤ 1) :
    (∀ m, m ∈ run_table (Real.logb 10) file tavg (some f2) peak_c? max_spac? min_vb? →
       m ∈ run_table (Real.logb 10) file tavg (some f1) peak_c? max_spac? min_vb?) ∧
    (∀ avg, file.averages[tavg]? = some avg → ∀ m ∈ file.rows,
       spec_classify (Real.logb 10) (noise_border (Real.logb 10) avg f1)
         (bonferroni (Real.logb 10)) (handle_inputs_int peak_c?)
         (handle_inputs_int max_spac?) (handle_inputs_float min_vb?) m = .background →
       spec_classify (Real.logb 10) (noise_border (Real.logb 10) avg f2)
         (bonferroni (Real.logb 10)) (handle_inputs_int peak_c?)
         (handle_inputs_int max_spac?) (handle_inputs_float min_vb?) m = .background) := by
  have hsig : ∀ (avg : ℝ) (m : Marker ℝ), 0 < m.p_wald → m.p_wald ≤ 1 →
      significant (Real.logb 10) (noise_border (Real.logb 10) avg f2)
        (bonferroni (Real.logb 10)) m = true →
      significant (Real.logb 10) (noise_border (Real.logb 10) avg f1)
        (bonferroni (Real.logb 10)) m = true := by
    intro avg m hp0 hp1 hs
    rw [significant, Bool.and_eq_true] at hs ⊢
    obtain ⟨hn, hb⟩ := hs
    refine ⟨?_, hb⟩
    rw [LOD_of_pos (Real.logb 10) hp0] at hn ⊢
    have hx : 0 ≤ Real.logb 10 m.p_wald * -1 := by
      have hnp := Real.logb_nonpos (by norm_num : (1:ℝ) < 10) hp0.le hp1
      nlinarith
    exact noise_lt_antitone h1 h12 hx (Real.logb 10) hn
  constructor
  · intro m hin
    cases hav : file.averages[tavg]? with
    | none =>
      rw [run_table_of_none (Real.logb 10) file tavg (some f2)
        peak_c? max_spac? min_vb? hav] at hin
      cases hin
    | some avg =>
      rw [mem_run_table (Real.logb 10) file tavg (some f2)
        peak_c? max_spac? min_vb? hav m] at hin
      rw [mem_run_table (Real.logb 10) file tavg (some f1)
        peak_c? max_spac? min_vb? hav m]
      obtain ⟨hm, hc1, hc2, helig, hpass⟩ := hin
      refine ⟨hm, hc1, hc2, helig, ?_⟩
      rw [passes_thresholds, Bool.and_eq_true] at hpass ⊢
      rw [handle_inputs_float_some] at hpass ⊢
      exact ⟨hsig avg m (hp m hm).1 (hp m hm).2 hpass.1, hpass.2⟩
  · intro avg hav m hm hbg
    have hcond1 : (quality_eligible m && significant (Real.logb 10)
        (noise_border (Real.logb 10) avg f1) (bonferroni (Real.logb 10)) m) = false := by
      by_contra hc
      rw [Bool.not_eq_false] at hc
      rw [spec_classify, hc] at hbg
      cases hst : structural_ok (handle_inputs_int peak_c?) (handle_inputs_int max_spac?)
          (handle_inputs_float min_vb?) m <;>
        simp [hst] at hbg
    rw [spec_classify]
    cases he2 : quality_eligible m with
    | false => simp
    | true =>
      rw [he2, Bool.true_and] at hcond1
      suffices hcond2 : significant (Real.logb 10)
          (noise_border (Real.logb 10) avg f2) (bonferroni (Real.logb 10)) m = false by
        rw [hcond2]
        simp
      by_contra hc
      rw [Bool.not_eq_false] at hc
      have := hsig avg m (hp m hm).1 (hp m hm).2 hc
      rw [hcond1] at this
      cases this

/-- Witness for C8 at a concrete real-valued file and multipliers 1 and 2. -/
theorem multiplier_monotone_witness :
    (0:ℝ) < 1 ∧ (1:ℝ) ≤ 2 ∧ (∀ m ∈ fileR.rows, 0 < m.p_wald ∧ m.p_wald ≤ 1) ∧
    ((∀ m, m ∈ run_table (Real.logb 10) fileR 0 (some 2) none none none →
        m ∈ run_table (Real.logb 10) fileR 0 (some 1) none none none) ∧
     (∀ avg, fileR.averages[0]? = some avg → ∀ m ∈ fileR.rows,
        spec_classify (Real.logb 10) (noise_border (Real.logb 10) avg 1)
          (bonferroni (Real.logb 10)) (handle_inputs_int (none : Option ℝ))
          (handle_inputs_int (none : Option ℝ))
          (handle_inputs_float (none : Option ℝ)) m = .background →
        spec_classify (Real.logb 10) (noise_border (Real.logb 10) avg 2)
          (bonferroni (Real.logb 10)) (handle_inputs_int (none : Option ℝ))
          (handle_inputs_int (none : Option ℝ))
          (handle_inputs_float (none : Option ℝ)) m = .background)) := by
  have hp : ∀ m ∈ fileR.rows, 0 < m.p_wald ∧ m.p_wald ≤ 1 := by
    intro m hm
    simp only [fileR, List.mem_singleton] at hm
    subst hm
    constructor <;> norm_num [mR]
  exact ⟨by norm_num, by norm_num, hp,
    multiplier_monotone fileR 0 1 2 none none none (by norm_num) (by norm_num) hp⟩

/-- C9 amended: the output table of a completed run is the concatenation,
in chromosome order 1 to 5, of the per-chromosome called subsets, and its
columns are the columns of the loaded file with the LOD column appended —
not exactly the eight Marker fields. -/
theorem table_assembly {α : Type} [LinearOrderedField α] [FloorRing α]
    (logpos : α → α) (file : HarvFile α) (tavg : ℕ) {avg : α}
    (fact? peak_c? max_spac? min_vb? : Option α)
    (h : file.averages[tavg]? = some avg) :
    ∃ o, update_graph logpos file tavg fact? peak_c? max_spac? min_vb? = .ok o ∧
      o.table =
        called logpos (noise_border logpos avg (handle_inputs_float fact?))
          (bonferroni logpos) (handle_inputs_int peak_c?) (handle_inputs_int max_spac?)
          (handle_inputs_float min_vb?) (harvester_called (chr_rows file.rows 1)) ++
        called logpos (noise_border logpos avg (handle_inputs_float fact?))
          (bonferroni logpos) (handle_inputs_int peak_c?) (handle_inputs_int max_spac?)
          (handle_inputs_float min_vb?) (harvester_called (chr_rows file.rows 2)) ++
        called logpos (noise_border logpos avg (handle_inputs_float fact?))
          (bonferroni logpos) (handle_inputs_int peak_c?) (handle_inputs_int max_spac?)
          (handle_inputs_float min_vb?) (harvester_called (chr_rows file.rows 3)) ++
        called logpos (noise_border logpos avg (handle_inputs_float fact?))
          (bonferroni logpos) (handle_inputs_int peak_c?) (handle_inputs_int max_spac?)
          (handle_inputs_float min_vb?) (harvester_called (chr_rows file.rows 4)) ++
        called logpos (noise_border logpos avg (handle_inputs_float fact?))
          (bonferroni logpos) (handle_inputs_int peak_c?) (handle_inputs_int max_spac?)
          (handle_inputs_float min_vb?) (harvester_called (chr_rows file.rows 5)) ∧
      o.columns = out_columns file.columns ∧
      ("LOD" ∉ file.columns → o.columns = file.columns ++ ["LOD"]) := by
  refine ⟨_, update_graph_eq logpos file tavg fact? peak_c? max_spac? min_vb? h,
    ?_, rfl, ?_⟩
  · show (List.range' 1 chromosomes_list.length).flatMap (fun c =>
      called logpos (noise_border logpos avg (handle_inputs_float fact?))
        (bonferroni logpos) (handle_inputs_int peak_c?) (handle_inputs_int max_spac?)
        (handle_inputs_float min_vb?) (harvester_called (chr_rows file.rows c))) = _
    have hr : List.range' 1 chromosomes_list.length = [1, 2, 3, 4, 5] := rfl
    rw [hr]
    simp [List.append_assoc]
  · intro hnot
    show out_columns file.columns = _
    rw [out_columns, if_neg hnot]

/-- Witness for the amended C9 at a concrete file. -/
theorem table_assembly_witness :
    fileW.averages[0]? = some 2 ∧
    (∃ o, update_graph logq fileW 0 (some 1) none none none = .ok o ∧
      o.table =
        called logq (noise_border logq 2 (handle_inputs_float (some 1)))
          (bonferroni logq) (handle_inputs_int (none : Option ℚ))
          (handle_inputs_int (none : Option ℚ)) (handle_inputs_float (none : Option ℚ))
          (harvester_called (chr_rows fileW.rows 1)) ++
        called logq (noise_border logq 2 (handle_inputs_float (some 1)))
          (bonferroni logq) (handle_inputs_int (none : Option ℚ))
          (handle_inputs_int (none : Option ℚ)) (handle_inputs_float (none : Option ℚ))
          (harvester_called (chr_rows fileW.rows 2)) ++
        called logq (noise_border logq 2 (handle_inputs_float (some 1)))
          (bonferroni logq) (handle_inputs_int (none : Option ℚ))
          (handle_inputs_int (none : Option ℚ)) (handle_inputs_float (none : Option ℚ))
          (harvester_called (chr_rows fileW.rows 3)) ++
        called logq (noise_border logq 2 (handle_inputs_float (some 1)))
          (bonferroni logq) (handle_inputs_int (none : Option ℚ))
          (handle_inputs_int (none : Option ℚ)) (handle_inputs_float (none : Option ℚ))
          (harvester_called (chr_rows fileW.rows 4)) ++
        called logq (noise_border logq 2 (handle_inputs_float (some 1)))
          (bonferroni logq) (handle_inputs_int (none : Option ℚ))
          (handle_inputs_int (none : Option ℚ)) (handle_inputs_float (none : Option ℚ))
          (harvester_called (chr_rows fileW.rows 5)) ∧
      o.columns = out_columns fileW.columns ∧
      ("LOD" ∉ fileW.columns → o.columns = fileW.columns ++ ["LOD"])) :=
  ⟨rfl, table_assembly logq fileW 0 (some 1) none none none
    (show fileW.averages[0]? = some (2:ℚ) from rfl)⟩

/-- Counterexample to the column clause of C9 as stated: at a concrete
file the output columns are the file columns with LOD appended, a
nine-element list that is no permutation of the eight Marker fields
(it also contains p_wald). -/
theorem columns_cex :
    run_columns logq fileW 0 (some 1) none none none =
      some (fileW.columns ++ ["LOD"]) ∧
    ¬ (fileW.columns ++ ["LOD"]).Perm spec_columns := by
  constructor
  · unfold run_columns
    rw [update_graph_eq logq fileW 0 (some 1) none none none
      (show fileW.averages[0]? = some (2:ℚ) from rfl)]
    show some (out_columns fileW.columns) = _
    rw [out_columns, if_neg (by decide)]
  · intro hp
    have hlen := hp.length_eq
    simp [fileW, spec_columns] at hlen

/-- C10: with a selected top-peak average above 1 and a positive
multiplier, the noise bound of the source formula is strictly negative,
so every marker with a p value in (0, 1] (hence non-negative LOD) passes
the noise comparison; and a larger multiplier gives a strictly smaller
noise bound, not a larger one. -/
theorem negative_noise_bound (avg mult : ℝ) (h1 : 1 < avg) (h2 : 0 < mult) :
    (noise_border (Real.logb 10) avg mult).lt (.fin 0) = true ∧
    (∀ m : Marker ℝ, 0 < m.p_wald → m.p_wald ≤ 1 →
      (noise_border (Real.logb 10) avg mult).lt (LOD (Real.logb 10) m) = true) ∧
    (∀ mult2 : ℝ, mult < mult2 →
      (noise_border (Real.logb 10) avg mult2).lt
        (noise_border (Real.logb 10) avg mult) = true) := by
  have havg : (0:ℝ) < avg := lt_trans one_pos h1
  have hL : 0 < Real.logb 10 avg := Real.logb_pos (by norm_num) h1
  rw [noise_border_of_pos (Real.logb 10) mult havg]
  refine ⟨?_, ?_, ?_⟩
  · rw [PyFloat.lt_fin_fin, decide_eq_true_eq]
    nlinarith
  · intro m hp0 hp1
    rw [LOD_of_pos (Real.logb 10) hp0, PyFloat.lt_fin_fin, decide_eq_true_eq]
    have hnp := Real.logb_nonpos (by norm_num : (1:ℝ) < 10) hp0.le hp1
    nlinarith
  · intro mult2 hm
    rw [noise_border_of_pos (Real.logb 10) mult2 havg, PyFloat.lt_fin_fin,
      decide_eq_true_eq]
    nlinarith

/-- Witness for C10 at average 10 and multiplier 1. -/
theorem negative_noise_bound_witness :
    (1:ℝ) < 10 ∧ (0:ℝ) < 1 ∧
    ((noise_border (Real.logb 10) 10 1).lt (.fin 0) = true ∧
     (∀ m : Marker ℝ, 0 < m.p_wald → m.p_wald ≤ 1 →
       (noise_border (Real.logb 10) 10 1).lt (LOD (Real.logb 10) m) = true) ∧
     (∀ mult2 : ℝ, 1 < mult2 →
       (noise_border (Real.logb 10) 10 mult2).lt
         (noise_border (Real.logb 10) 10 1) = true)) :=
  ⟨by norm_num, by norm_num, negative_noise_bound 10 1 (by norm_num) (by norm_num)⟩

end SNIP
